import Mathlib

/-!
Verification of the host-agent search and file-retrieval service
(`src/host-agent/src/host_agent/search.py`).

The module shells out to ripgrep with `--json` output, folds the streamed
events into per-file match groups with before and after context lines, and
separately offers a path-sandboxed bulk file reader (`get_files`).

Embedding notes.
* Machine strings are Lean `String`; Python `str.startswith` is modelled by
  `strStartsWith` (plain string-prefix test, which is exactly what the code
  calls — the distinction between string prefix and path-component prefix is
  load bearing below).
* The JSON line parser is modelled by the tagged variant `RgLine`: ripgrep
  emits one JSON object per line, which the Python code inspects via
  `data.get("type")` and a handful of key lookups wrapped in
  `except (json.JSONDecodeError, KeyError)`.  `RgLine.malformed` stands for a
  line whose parse fails before any aggregation state is touched (bad JSON,
  or a key missing before the file path is read); `RgLine.matchResidue`
  stands for a match-typed line whose path parses but whose `line_number` or
  `lines.text` lookup raises `KeyError` *after* the code has already inserted
  an empty list for a new file key.  Event paths are carried already relative
  to the search root, as ripgrep only reports descendants of the root it was
  given (the Python `relative_to` call).
* The operating system is modelled by explicit records: `SearchEnv` for the
  subprocess launch and `FS` for the filesystem seen by `get_files`
  (`resolve` is `Path.resolve`, i.e. canonicalisation including symlinks,
  left abstract as a function of the filesystem state).
-/

/-- A single search match within a file (Python model `SearchMatch`). -/
structure SearchMatch where
  line_number : Nat
  content : String
  context_before : List String
  context_after : List String
deriving Repr, DecidableEq

/-- Search result for a single file (Python model `SearchResult`). -/
structure SearchResult where
  file : String
  «matches» : List SearchMatch
deriving Repr, DecidableEq

/-- Response of the search endpoint (Python model `SearchResponse`). -/
structure SearchResponse where
  results : List SearchResult
  total_matches : Nat
  truncated : Bool
deriving Repr, DecidableEq

/-- Content of a single retrieved file (Python model `FileContent`). -/
structure FileContent where
  path : String
  content : String
  size : Nat
deriving Repr, DecidableEq

/-- A per-file error entry, the `{"file": ..., "error": ...}` dict appended to
`errors` in `get_files`. -/
structure FileErr where
  file : String
  error : String
deriving Repr, DecidableEq

/-- Response of the get-files endpoint (Python model `GetFilesResponse`). -/
structure GetFilesResponse where
  files : List FileContent
  errors : List FileErr
deriving Repr, DecidableEq

/-- One line of ripgrep `--json` output, as seen by the parsing loop.  See the
module comment for what the two failure constructors stand for. -/
inductive RgLine where
  | match_ (path : String) (line_number : Nat) (text : String)
  | context (path : String) (line_number : Nat) (text : String)
  | other
  | malformed
  | matchResidue (path : String)
deriving Repr, DecidableEq

/-- Python `str.rstrip()`: drop trailing whitespace. -/
def rstrip (s : String) : String :=
  String.mk ((s.data.reverse.dropWhile Char.isWhitespace).reverse)

/-- The allow-list of logical directory names, the Python literal
`["n8n-docs", "n8n-nodes-only"]` checked by both endpoints. -/
def allowedDirs : List String := ["n8n-docs", "n8n-nodes-only"]

/-- State of the aggregation loop: the insertion-ordered dict
`results : Dict[str, List[SearchMatch]]` and the counter `total_matches`. -/
structure AggState where
  results : List (String × List SearchMatch)
  total_matches : Nat
deriving Repr, DecidableEq

/-- Dict lookup `results[k]` on the insertion-ordered association list
(first occurrence wins; reachable states have unique keys). -/
def lookupKey : List (String × List SearchMatch) → String → Option (List SearchMatch)
  | [], _ => none
  | (k1, ms) :: rest, k => if k1 = k then some ms else lookupKey rest k

/-- Python `if file_key not in results: results[file_key] = []` followed by
`results[file_key].append(m)`: create the key at the end on first use, then
append to its list. -/
def appendToKey : List (String × List SearchMatch) → String → SearchMatch →
    List (String × List SearchMatch)
  | [], k, m => [(k, [m])]
  | (k1, ms) :: rest, k, m =>
    if k1 = k then (k1, ms ++ [m]) :: rest else (k1, ms) :: appendToKey rest k m

/-- Dict update `results[k] = f results[k]` (first occurrence). -/
def updateKey : List (String × List SearchMatch) → String →
    (List SearchMatch → List SearchMatch) → List (String × List SearchMatch)
  | [], _, _ => []
  | (k1, ms) :: rest, k, f =>
    if k1 = k then (k1, f ms) :: rest else (k1, ms) :: updateKey rest k f

/-- Attach one context line to a match: strictly smaller line number goes to
`context_before`, otherwise to `context_after` (the Python
`if line_num < last_match.line_number` / `else`). -/
def attachContext (m : SearchMatch) (ln : Nat) (text : String) : SearchMatch :=
  if ln < m.line_number then
    { m with context_before := m.context_before ++ [rstrip text] }
  else
    { m with context_after := m.context_after ++ [rstrip text] }

/-- Attach one context line to the last match of a file's list, the Python
`results[file_key][-1]` mutation. -/
def attachLast : List SearchMatch → Nat → String → List SearchMatch
  | [], _, _ => []
  | [m], ln, text => [attachContext m ln text]
  | m :: m2 :: rest, ln, text => m :: attachLast (m2 :: rest) ln text

/-- One iteration of the parsing loop of `search_directory` (lines 131-176 of
`search.py`), as a transition on the aggregation state. -/
def processLine (st : AggState) (l : RgLine) : AggState :=
  match l with
  | RgLine.match_ k ln text =>
    { results := appendToKey st.results k ⟨ln, rstrip text, [], []⟩,
      total_matches := st.total_matches + 1 }
  | RgLine.context k ln text =>
    if st.results = [] then st
    else
      match lookupKey st.results k with
      | none => st
      | some ms =>
        if ms = [] then st
        else { st with results := updateKey st.results k (fun l => attachLast l ln text) }
  | RgLine.other => st
  | RgLine.malformed => st
  | RgLine.matchResidue k =>
    if (lookupKey st.results k).isSome then st
    else { st with results := st.results ++ [(k, [])] }

/-- Fold the whole event stream from the empty dict and zero counter. -/
def aggregate (lines : List RgLine) : AggState :=
  lines.foldl processLine ⟨[], 0⟩

/-- Contribution of one event to the match counter. -/
def matchInc : RgLine → Nat
  | RgLine.match_ _ _ _ => 1
  | RgLine.context _ _ _ => 0
  | RgLine.other => 0
  | RgLine.malformed => 0
  | RgLine.matchResidue _ => 0

/-- Number of well-formed match events in a stream. -/
def countMatches : List RgLine → Nat
  | [] => 0
  | l :: rest => matchInc l + countMatches rest

/-- Build the `SearchResponse` from a parsed event stream: the dict becomes the
ordered result list, and `truncated = total_matches >= max_results`. -/
def search_response (lines : List RgLine) (max_results : Nat) : SearchResponse :=
  let st := aggregate lines
  { results := st.results.map (fun p => ⟨p.1, p.2⟩),
    total_matches := st.total_matches,
    truncated := decide (st.total_matches ≥ max_results) }

/-- The ripgrep argument vector built by `search_directory`. -/
def rg_cmd (query : String) (max_results context_lines : Nat) (full_path : String) :
    List String :=
  ["rg", "--json", "--max-count", toString max_results, "--context",
   toString context_lines, "--no-heading", "--line-number", "--color", "never",
   "--", query, full_path]

/-- The process environment seen by `search_directory`: whether the search root
exists, and the subprocess launch, returning exit code, parsed stdout lines and
captured stderr text.  Exit codes are integers (negative on signals). -/
structure SearchEnv where
  dirExists : String → Bool
  run : List String → Int × List RgLine × String

/-- The search endpoint `search_directory` of `search.py`.  A raised
`SearchError` is modelled as `Except.error` with the raised message; the
`SearchError` raised for a bad exit code inside the `try` block is caught by
the outer `except Exception` and re-wrapped, hence the doubled message text. -/
def search_directory (env : SearchEnv) (query directory : String)
    (max_results context_lines : Nat) (base_path : String) :
    Except String SearchResponse :=
  if directory ∈ allowedDirs then
    let full_path := base_path ++ "/" ++ directory
    if env.dirExists full_path then
      let r := env.run (rg_cmd query max_results context_lines full_path)
      if r.1 ≠ 0 ∧ r.1 ≠ 1 then
        .error ("Search operation failed: Search failed: " ++ r.2.2)
      else
        .ok (search_response r.2.1 max_results)
    else .error ("Directory not found: " ++ full_path)
  else .error ("Invalid directory: " ++ directory)

/-- Python `str.startswith(pre)`, a plain string-prefix test on the rendered
paths — exactly what the security check of `get_files` calls. -/
def strStartsWith (s pre : String) : Bool :=
  List.isPrefixOf pre.data s.data

/-- Outcome of `Path.read_text(encoding='utf-8')`: success, a
`UnicodeDecodeError` (caught and sent to the fallback), or any other
exception, which the per-file `except Exception` turns into an
"Unexpected error" entry. -/
inductive ReadTextResult where
  | ok (content : String)
  | decodeError
  | ioError (msg : String)
deriving Repr, DecidableEq

/-- The filesystem seen by `get_files`: `resolve` is `Path.resolve`
(canonicalisation including symlink resolution, a function of the filesystem
state), the rest model `exists`, `is_file`, `read_text`,
`read_bytes().decode('utf-8', errors='replace')` and `stat().st_size`. -/
structure FS where
  resolve : String → String
  pathExists : String → Bool
  is_file : String → Bool
  read_text : String → ReadTextResult
  read_bytes_fallback : String → Except String String
  size : String → Nat

/-- `pathlib` `/` on a string operand: an absolute right operand replaces the
base, otherwise the two are joined with a separator. -/
def joinPath (base p : String) : String :=
  if strStartsWith p "/" then p else base ++ "/" ++ p

/-- The body of the per-file loop of `get_files` (lines 230-290 of
`search.py`): resolve, string-prefix containment check, existence and
file-kind checks, then the read with decode fallback.  Returns the
`FileContent` appended to `files` or the error dict appended to `errors`. -/
def processFile (fs : FS) (full_base p : String) : FileContent ⊕ FileErr :=
  let full := fs.resolve (joinPath full_base p)
  if ¬ strStartsWith full (fs.resolve full_base) then
    .inr ⟨p, "Path traversal attempt detected"⟩
  else if ¬ fs.pathExists full then
    .inr ⟨p, "File not found"⟩
  else if ¬ fs.is_file full then
    .inr ⟨p, "Path is not a file"⟩
  else
    match fs.read_text full with
    | ReadTextResult.ok c => .inl ⟨p, c, fs.size full⟩
    | ReadTextResult.decodeError =>
      match fs.read_bytes_fallback full with
      | .ok c => .inl ⟨p, c, fs.size full⟩
      | .error e => .inr ⟨p, "Failed to read file: " ++ e⟩
    | ReadTextResult.ioError e => .inr ⟨p, "Unexpected error: " ++ e⟩

/-- The whole per-file loop: each requested path lands in `files` or in
`errors`, in request order, independently of the other paths. -/
def process_files (fs : FS) (full_base : String) : List String → GetFilesResponse
  | [] => ⟨[], []⟩
  | p :: rest =>
    let r := process_files fs full_base rest
    match processFile fs full_base p with
    | .inl fc => ⟨fc :: r.files, r.errors⟩
    | .inr e => ⟨r.files, e :: r.errors⟩

/-- The get-files endpoint `get_files` of `search.py`: allow-list check,
base-directory existence check, then the per-file loop. -/
def get_files (fs : FS) (directory : String) (files : List String)
    (base_path : String) : Except String GetFilesResponse :=
  if directory ∈ allowedDirs then
    let full_base := base_path ++ "/" ++ directory
    if fs.pathExists full_base then
      .ok (process_files fs full_base files)
    else .error ("Directory not found: " ++ full_base)
  else .error ("Invalid directory: " ++ directory)

/-- Split a character list at separators, as `str.split("/")` does. -/
def splitOnSlash : List Char → List String
  | [] => [""]
  | c :: rest =>
    let r := splitOnSlash rest
    if c = '/' then "" :: r
    else
      match r with
      | [] => [String.mk [c]]
      | s :: ss => String.mk (c :: s.data) :: ss

/-- Normalise a component list: drop empty and `.` components, let `..` pop
the previous component (and stay at the root when there is none). -/
def normalizeComponents (cs : List String) : List String :=
  cs.foldl
    (fun acc c =>
      if c = "" ∨ c = "." then acc
      else if c = ".." then acc.dropLast
      else acc ++ [c])
    []

/-- Render an absolute path from its components. -/
def joinComponents (cs : List String) : String :=
  cs.foldl (fun acc c => acc ++ "/" ++ c) ""

/-- `Path.resolve` on a symlink-free filesystem: purely textual normalisation
of `..` and `.` segments of an absolute path. -/
def normalizePath (p : String) : String :=
  joinComponents (normalizeComponents (splitOnSlash p.data))

/-- The spec's path-containment predicate: the canonical resolved path is the
canonical base path itself or a descendant of it (a component-wise extension,
i.e. the base followed by a separator). -/
def isDescendantOrSelf (p base : String) : Bool :=
  decide (p = base) || strStartsWith p (base ++ "/")

/-- A symlink-free filesystem holding the deployment's default base directory
`/home/david/vps` with the allow-listed root `n8n-docs` and, next to it, a
sibling directory `n8n-docs-evil` containing a readable UTF-8 file. -/
def evilFS : FS :=
  { resolve := normalizePath,
    pathExists := fun p =>
      decide (p = "/home/david/vps/n8n-docs") ||
      decide (p = "/home/david/vps/n8n-docs-evil/secret.txt"),
    is_file := fun p => decide (p = "/home/david/vps/n8n-docs-evil/secret.txt"),
    read_text := fun p =>
      if p = "/home/david/vps/n8n-docs-evil/secret.txt" then
        ReadTextResult.ok "stolen"
      else ReadTextResult.ioError "No such file or directory",
    read_bytes_fallback := fun _ => .error "No such file or directory",
    size := fun _ => 6 }

/-- A small symlink-free filesystem with base `/v`, the allow-listed root
`n8n-docs` and one readable UTF-8 file `a.md` in it. -/
def demoFS : FS :=
  { resolve := normalizePath,
    pathExists := fun p =>
      decide (p = "/v/n8n-docs") || decide (p = "/v/n8n-docs/a.md"),
    is_file := fun p => decide (p = "/v/n8n-docs/a.md"),
    read_text := fun p =>
      if p = "/v/n8n-docs/a.md" then ReadTextResult.ok "hello"
      else ReadTextResult.ioError "No such file or directory",
    read_bytes_fallback := fun _ => .error "No such file or directory",
    size := fun _ => 5 }

/-- Like `demoFS`, but the file `b.bin` is not valid UTF-8: `read_text`
raises `UnicodeDecodeError` and the permissive fallback decode yields a
replacement-character text. -/
def fallbackFS : FS :=
  { resolve := normalizePath,
    pathExists := fun p =>
      decide (p = "/v/n8n-docs") || decide (p = "/v/n8n-docs/b.bin"),
    is_file := fun p => decide (p = "/v/n8n-docs/b.bin"),
    read_text := fun p =>
      if p = "/v/n8n-docs/b.bin" then ReadTextResult.decodeError
      else ReadTextResult.ioError "No such file or directory",
    read_bytes_fallback := fun p =>
      if p = "/v/n8n-docs/b.bin" then .ok "x?y"
      else .error "No such file or directory",
    size := fun _ => 3 }

/-- An environment in which no directory exists and ripgrep finds nothing. -/
def stubEnv : SearchEnv :=
  { dirExists := fun _ => false, run := fun _ => (0, [], "") }

/-- An environment whose search root exists but whose ripgrep launch fails
with exit code 2 and a diagnostic on stderr. -/
def failEnv : SearchEnv :=
  { dirExists := fun _ => true,
    run := fun _ => (2, [], "rg: error parsing pattern") }

/-- An environment whose ripgrep launch exits 0 with one match event. -/
def okEnv : SearchEnv :=
  { dirExists := fun _ => true,
    run := fun _ => (0, [RgLine.match_ "a.md" 3 "hit line\n"], "") }

/-- Total match count after folding a stream from any starting state. -/
lemma foldl_total (lines : List RgLine) : ∀ st : AggState,
    (List.foldl processLine st lines).total_matches =
      st.total_matches + countMatches lines := by
  induction lines with
  | nil => intro st; simp [countMatches]
  | cons l rest ih =>
    intro st
    rw [List.foldl_cons, ih]
    cases l with
    | match_ k ln text =>
      simp [processLine, countMatches, matchInc]
      omega
    | context k ln text =>
      have h : (processLine st (RgLine.context k ln text)).total_matches =
          st.total_matches := by
        simp only [processLine]
        split
        · rfl
        · split
          · rfl
          · split
            · rfl
            · rfl
      rw [h]
      simp [countMatches, matchInc]
    | other => simp [processLine, countMatches, matchInc]
    | malformed => simp [processLine, countMatches, matchInc]
    | matchResidue k =>
      have h : (processLine st (RgLine.matchResidue k)).total_matches =
          st.total_matches := by
        simp only [processLine]
        split
        · rfl
        · rfl
      rw [h]
      simp [countMatches, matchInc]

/-- The reported total is exactly the number of match events in the stream. -/
lemma total_matches_eq_countMatches (lines : List RgLine) (mx : Nat) :
    (search_response lines mx).total_matches = countMatches lines := by
  have h := foldl_total lines ⟨[], 0⟩
  simpa [search_response, aggregate] using h

/-- The truncation flag is the comparison of that total with the cap. -/
lemma truncated_eq_decide (lines : List RgLine) (mx : Nat) :
    (search_response lines mx).truncated = decide (mx ≤ countMatches lines) := by
  have h := foldl_total lines ⟨[], 0⟩
  simp [search_response, aggregate] at h ⊢
  simp [h]

/-- `countMatches` is additive over stream concatenation. -/
lemma countMatches_append (a b : List RgLine) :
    countMatches (a ++ b) = countMatches a + countMatches b := by
  induction a with
  | nil => simp [countMatches]
  | cons l rest ih => simp [countMatches, ih]; omega

/-- Dict lookup after an update at the same key. -/
lemma lookupKey_updateKey_self (rs : List (String × List SearchMatch)) (k : String)
    (f : List SearchMatch → List SearchMatch) :
    lookupKey (updateKey rs k f) k = (lookupKey rs k).map f := by
  induction rs with
  | nil => rfl
  | cons a tl ih =>
    obtain ⟨k1, ms⟩ := a
    by_cases h : k1 = k
    · simp [updateKey, lookupKey, h]
    · simp [updateKey, lookupKey, h, ih]

/-- Dict lookup at a different key is unchanged by an update. -/
lemma lookupKey_updateKey_ne (rs : List (String × List SearchMatch)) (k k2 : String)
    (f : List SearchMatch → List SearchMatch) (h : k2 ≠ k) :
    lookupKey (updateKey rs k f) k2 = lookupKey rs k2 := by
  induction rs with
  | nil => rfl
  | cons a tl ih =>
    obtain ⟨k1, ms⟩ := a
    by_cases h1 : k1 = k
    · subst h1
      simp [updateKey, lookupKey, Ne.symm h, ih]
    · simp [updateKey, lookupKey, h1, ih]

/-- `attachLast` rewrites only the last element of a non-empty list. -/
lemma attachLast_eq (ms : List SearchMatch) (m : SearchMatch) (ln : Nat) (text : String)
    (h : ms.getLast? = some m) :
    attachLast ms ln text = ms.dropLast ++ [attachContext m ln text] := by
  induction ms with
  | nil => simp at h
  | cons a tl ih =>
    cases tl with
    | nil =>
      simp [List.getLast?] at h
      subst h
      simp [attachLast]
    | cons b tl2 =>
      rw [List.getLast?_cons_cons] at h
      simp [attachLast, ih h]

/-- Every branch of the per-file loop labels its outcome with the requested
path itself. -/
lemma processFile_path (fs : FS) (fb p : String) :
    (processFile fs fb p).elim FileContent.path FileErr.file = p := by
  simp only [processFile]
  split
  · rfl
  · split
    · rfl
    · split
      · rfl
      · split
        · rfl
        · split
          · rfl
          · rfl
        · rfl

/-- Each requested path contributes exactly one entry, to `files` or to
`errors`, so per-path occurrence counts add up. -/
lemma process_files_count (fs : FS) (fb : String) (files : List String) (q : String) :
    ((process_files fs fb files).files.map FileContent.path).count q +
      ((process_files fs fb files).errors.map FileErr.file).count q =
      files.count q := by
  induction files with
  | nil => simp [process_files]
  | cons p rest ih =>
    have hp := processFile_path fs fb p
    cases h : processFile fs fb p with
    | inl fc =>
      rw [h] at hp
      simp only [Sum.elim_inl] at hp
      simp [process_files, h, List.count_cons, hp, ← ih]
      split <;> omega
    | inr e =>
      rw [h] at hp
      simp only [Sum.elim_inr] at hp
      simp [process_files, h, List.count_cons, hp, ← ih]
      split <;> omega

/-- The two output lists together are as long as the request list. -/
lemma process_files_length (fs : FS) (fb : String) (files : List String) :
    (process_files fs fb files).files.length +
      (process_files fs fb files).errors.length = files.length := by
  induction files with
  | nil => simp [process_files]
  | cons p rest ih =>
    cases h : processFile fs fb p with
    | inl fc => simp [process_files, h]; omega
    | inr e => simp [process_files, h]; omega

/-- The successfully read paths form an order-preserving projection of the
request list. -/
lemma process_files_files_sublist (fs : FS) (fb : String) (files : List String) :
    ((process_files fs fb files).files.map FileContent.path).Sublist files := by
  induction files with
  | nil => simp [process_files]
  | cons p rest ih =>
    have hp := processFile_path fs fb p
    cases h : processFile fs fb p with
    | inl fc =>
      rw [h] at hp
      simp only [Sum.elim_inl] at hp
      simpa [process_files, h, hp] using List.Sublist.cons₂ p (by simpa [hp] using ih)
    | inr e =>
      simpa [process_files, h] using List.Sublist.cons p ih

/-- The failed paths form an order-preserving projection of the request
list. -/
lemma process_files_errors_sublist (fs : FS) (fb : String) (files : List String) :
    ((process_files fs fb files).errors.map FileErr.file).Sublist files := by
  induction files with
  | nil => simp [process_files]
  | cons p rest ih =>
    have hp := processFile_path fs fb p
    cases h : processFile fs fb p with
    | inl fc =>
      simpa [process_files, h] using List.Sublist.cons p ih
    | inr e =>
      rw [h] at hp
      simp only [Sum.elim_inr] at hp
      simpa [process_files, h, hp] using List.Sublist.cons₂ p (by simpa [hp] using ih)

/-- A successful per-file outcome of a requested path lands in `files`. -/
lemma mem_process_files_inl (fs : FS) (fb : String) (files : List String)
    (p : String) (fc : FileContent) (hmem : p ∈ files)
    (h : processFile fs fb p = .inl fc) :
    fc ∈ (process_files fs fb files).files := by
  induction files with
  | nil => simp at hmem
  | cons a rest ih =>
    rcases List.mem_cons.mp hmem with rfl | hmem2
    · simp [process_files, h]
    · cases ha : processFile fs fb a with
      | inl fc2 => simp [process_files, ha, ih hmem2]
      | inr e2 => simp [process_files, ha, ih hmem2]

/-- A failed per-file outcome of a requested path lands in `errors`. -/
lemma mem_process_files_inr (fs : FS) (fb : String) (files : List String)
    (p : String) (e : FileErr) (hmem : p ∈ files)
    (h : processFile fs fb p = .inr e) :
    e ∈ (process_files fs fb files).errors := by
  induction files with
  | nil => simp at hmem
  | cons a rest ih =>
    rcases List.mem_cons.mp hmem with rfl | hmem2
    · simp [process_files, h]
    · cases ha : processFile fs fb a with
      | inl fc2 => simp [process_files, ha, ih hmem2]
      | inr e2 => simp [process_files, ha, ih hmem2]

/-- C1: the spec demands that any requested path whose canonical resolution
escapes the canonical base directory is rejected with a path-traversal error
and never read.  The code checks containment with a plain string-prefix test
(`str(resolved).startswith(str(resolved_base))`), so on a symlink-free
filesystem the request `../n8n-docs-evil/secret.txt` against base
`/home/david/vps/n8n-docs` resolves to the sibling directory
`/home/david/vps/n8n-docs-evil` — not the base nor a descendant of it — yet
passes the check, and the file's content is read and returned with no error
entry. -/
theorem get_files_prefix_check_escape :
    isDescendantOrSelf
      (evilFS.resolve (joinPath ("/home/david/vps" ++ "/" ++ "n8n-docs")
        "../n8n-docs-evil/secret.txt"))
      (evilFS.resolve ("/home/david/vps" ++ "/" ++ "n8n-docs")) = false ∧
    get_files evilFS "n8n-docs" ["../n8n-docs-evil/secret.txt"] "/home/david/vps" =
      .ok ⟨[⟨"../n8n-docs-evil/secret.txt", "stolen", 6⟩], []⟩ :=
  ⟨by decide, by rfl⟩

/-- C2 counterexample: a stream with two match events and `max_results = 1`
(multiple files, or ripgrep's per-file `--max-count`, can produce this) is
aggregated with `total_matches = 2`, not exactly `max_results = 1`, refuting
the claimed cap on the counter. -/
theorem truncation_cap_overshoot_cex :
    countMatches [RgLine.match_ "a.md" 1 "x", RgLine.match_ "b.md" 2 "y"] = 2 ∧
    (search_response [RgLine.match_ "a.md" 1 "x", RgLine.match_ "b.md" 2 "y"] 1).truncated
      = true ∧
    (search_response [RgLine.match_ "a.md" 1 "x", RgLine.match_ "b.md" 2 "y"] 1).total_matches
      ≠ 1 :=
  ⟨by decide, by decide, by decide⟩

/-- C2 (amended): `total_matches` counts every match event of the stream (it
is not clamped to `max_results` and exceeds it when more than `max_results`
match events arrive), and `truncated` is computed as
`total_matches >= max_results`; in particular a stream with more match events
than `max_results` always reports `truncated = true`. -/
theorem truncation_flag_semantics (lines : List RgLine) (mx : Nat) :
    (search_response lines mx).total_matches = countMatches lines ∧
    ((search_response lines mx).truncated = true ↔ mx ≤ countMatches lines) ∧
    (mx < countMatches lines → (search_response lines mx).truncated = true) := by
  refine ⟨total_matches_eq_countMatches lines mx, ?_, ?_⟩
  · rw [truncated_eq_decide]
    exact decide_eq_true_iff
  · intro hlt
    rw [truncated_eq_decide]
    simp
    omega

/-- C2 witness: on the two-match stream with cap 1 the flag is reported. -/
theorem truncation_flag_semantics_witness :
    (search_response [RgLine.match_ "a.md" 1 "x", RgLine.match_ "b.md" 2 "y"] 1).truncated
      = true :=
  (truncation_flag_semantics [RgLine.match_ "a.md" 1 "x", RgLine.match_ "b.md" 2 "y"]
    1).2.2 (by decide)

/-- C5: a directory name outside the allow-list makes both endpoints fail
immediately with the configuration error, whatever the subprocess environment
or filesystem would have answered — no subprocess launch, no file I/O, no
partial result. -/
theorem invalid_directory_terminal (env : SearchEnv) (fs : FS) (q d base : String)
    (files : List String) (mx cx : Nat)
    (h1 : d ≠ "n8n-docs") (h2 : d ≠ "n8n-nodes-only") :
    search_directory env q d mx cx base = .error ("Invalid directory: " ++ d) ∧
    get_files fs d files base = .error ("Invalid directory: " ++ d) := by
  have hd : d ∉ allowedDirs := by simp [allowedDirs, h1, h2]
  exact ⟨by simp [search_directory, hd], by simp [get_files, hd]⟩

/-- C5 witness: requesting directory `etc` fails with the configuration error
in an environment that would otherwise answer every call. -/
theorem invalid_directory_terminal_witness :
    search_directory okEnv "q" "etc" 5 2 "/v" = .error ("Invalid directory: " ++ "etc") ∧
    get_files demoFS "etc" ["a.md"] "/v" = .error ("Invalid directory: " ++ "etc") :=
  invalid_directory_terminal okEnv demoFS "q" "etc" "/v" ["a.md"] 5 2
    (by decide) (by decide)

/-- C6: exit codes 0 (matches found) and 1 (no matches) are both non-error
outcomes of the ripgrep run; every other exit code fails the search with a
`SearchError` whose message carries the captured standard-error text. -/
theorem exit_code_handling (env : SearchEnv) (q d : String) (mx cx : Nat)
    (base : String) (hd : d ∈ allowedDirs)
    (hex : env.dirExists (base ++ "/" ++ d) = true) :
    ((env.run (rg_cmd q mx cx (base ++ "/" ++ d))).1 = 0 ∨
        (env.run (rg_cmd q mx cx (base ++ "/" ++ d))).1 = 1 →
      search_directory env q d mx cx base =
        .ok (search_response (env.run (rg_cmd q mx cx (base ++ "/" ++ d))).2.1 mx)) ∧
    ((env.run (rg_cmd q mx cx (base ++ "/" ++ d))).1 ≠ 0 →
      (env.run (rg_cmd q mx cx (base ++ "/" ++ d))).1 ≠ 1 →
      search_directory env q d mx cx base =
        .error ("Search operation failed: Search failed: " ++
          (env.run (rg_cmd q mx cx (base ++ "/" ++ d))).2.2)) := by
  constructor
  · intro h01
    have hn : ¬ ((env.run (rg_cmd q mx cx (base ++ "/" ++ d))).1 ≠ 0 ∧
        (env.run (rg_cmd q mx cx (base ++ "/" ++ d))).1 ≠ 1) := by
      rcases h01 with h | h <;> simp [h]
    simp [search_directory, hd, hex, hn]
  · intro h0 h1
    simp [search_directory, hd, hex, h0, h1]

/-- C6 witness: an exit-2 run fails with the stderr text in the message and an
exit-0 run succeeds. -/
theorem exit_code_handling_witness :
    search_directory failEnv "q" "n8n-docs" 5 2 "/v" =
      .error ("Search operation failed: Search failed: " ++ "rg: error parsing pattern") ∧
    search_directory okEnv "q" "n8n-docs" 5 2 "/v" =
      .ok (search_response [RgLine.match_ "a.md" 3 "hit line\n"] 5) := by
  constructor
  · exact (exit_code_handling failEnv "q" "n8n-docs" 5 2 "/v" (by decide) rfl).2
      (by decide) (by decide)
  · exact (exit_code_handling okEnv "q" "n8n-docs" 5 2 "/v" (by decide) rfl).1
      (Or.inl rfl)

/-- C3: a context event whose file already has a recorded match is attached to
the most recently recorded match of that same file, on the side decided by its
line number (strictly smaller appends to `context_before`, strictly larger to
`context_after`, each at the end, i.e. in arrival order); the match lists of
every other file are untouched, as is the match counter. -/
theorem context_attached_to_last_match_same_file (st : AggState) (k : String)
    (ln : Nat) (text : String) (ms : List SearchMatch) (m : SearchMatch)
    (hfind : lookupKey st.results k = some ms) (hlast : ms.getLast? = some m) :
    (processLine st (RgLine.context k ln text)).total_matches = st.total_matches ∧
    (∀ k2, k2 ≠ k →
      lookupKey (processLine st (RgLine.context k ln text)).results k2 =
        lookupKey st.results k2) ∧
    (ln < m.line_number →
      lookupKey (processLine st (RgLine.context k ln text)).results k =
        some (ms.dropLast ++
          [{ m with context_before := m.context_before ++ [rstrip text] }])) ∧
    (m.line_number < ln →
      lookupKey (processLine st (RgLine.context k ln text)).results k =
        some (ms.dropLast ++
          [{ m with context_after := m.context_after ++ [rstrip text] }])) := by
  have hne : ms ≠ [] := by
    rintro rfl
    simp at hlast
  have hres : ¬ st.results = [] := by
    intro h
    rw [h] at hfind
    simp [lookupKey] at hfind
  have hstep : processLine st (RgLine.context k ln text) =
      { st with results := updateKey st.results k (fun l => attachLast l ln text) } := by
    simp [processLine, hres, hfind, hne]
  rw [hstep]
  refine ⟨rfl, ?_, ?_, ?_⟩
  · intro k2 hk2
    exact lookupKey_updateKey_ne st.results k k2 _ hk2
  · intro hlt
    rw [lookupKey_updateKey_self, hfind, Option.map_some', attachLast_eq ms m ln text hlast]
    simp [attachContext, hlt]
  · intro hgt
    have hnlt : ¬ ln < m.line_number := by omega
    rw [lookupKey_updateKey_self, hfind, Option.map_some', attachLast_eq ms m ln text hlast]
    simp [attachContext, hnlt]

/-- C3 witness: in a state holding matches for `a.md` (at line 5) and `b.md`,
a context event for `a.md` at line 4 goes to `context_before` of the `a.md`
match, leaves `b.md` alone and leaves the counter alone. -/
theorem context_attached_to_last_match_same_file_witness :
    (processLine ⟨[("a.md", [⟨5, "hit", [], []⟩]), ("b.md", [⟨9, "other", [], []⟩])], 2⟩
        (RgLine.context "a.md" 4 "ctx\n")).total_matches = 2 ∧
    lookupKey (processLine
        ⟨[("a.md", [⟨5, "hit", [], []⟩]), ("b.md", [⟨9, "other", [], []⟩])], 2⟩
        (RgLine.context "a.md" 4 "ctx\n")).results "b.md" =
      some [⟨9, "other", [], []⟩] ∧
    lookupKey (processLine
        ⟨[("a.md", [⟨5, "hit", [], []⟩]), ("b.md", [⟨9, "other", [], []⟩])], 2⟩
        (RgLine.context "a.md" 4 "ctx\n")).results "a.md" =
      some [⟨5, "hit", ["ctx"], []⟩] := by
  have h := context_attached_to_last_match_same_file
    ⟨[("a.md", [⟨5, "hit", [], []⟩]), ("b.md", [⟨9, "other", [], []⟩])], 2⟩
    "a.md" 4 "ctx\n" [⟨5, "hit", [], []⟩] ⟨5, "hit", [], []⟩ (by decide) (by decide)
  refine ⟨h.1, ?_, ?_⟩
  · rw [h.2.1 "b.md" (by decide)]
    decide
  · have h3 := h.2.2.1 (by decide)
    rw [h3]
    decide

/-- C4: with an allow-listed, existing directory, `get_files` succeeds and
every requested path lands in exactly one of `files` and `errors` — per-path
occurrence counts add up exactly, and the two output lists together have the
length of the request list, so no path is dropped, duplicated or reported
twice, and no file's failure suppresses another file's entry. -/
theorem get_files_partition_exact (fs : FS) (d : String) (files : List String)
    (base : String) (hd : d ∈ allowedDirs)
    (hex : fs.pathExists (base ++ "/" ++ d) = true) :
    get_files fs d files base = .ok (process_files fs (base ++ "/" ++ d) files) ∧
    (∀ q, ((process_files fs (base ++ "/" ++ d) files).files.map FileContent.path).count q +
        ((process_files fs (base ++ "/" ++ d) files).errors.map FileErr.file).count q =
        files.count q) ∧
    (process_files fs (base ++ "/" ++ d) files).files.length +
      (process_files fs (base ++ "/" ++ d) files).errors.length = files.length := by
  refine ⟨by simp [get_files, hd, hex], ?_, process_files_length fs (base ++ "/" ++ d) files⟩
  intro q
  exact process_files_count fs (base ++ "/" ++ d) files q

/-- C4 witness: two requested paths, one readable and one missing, produce one
`files` entry and one `errors` entry whose counts add up. -/
theorem get_files_partition_exact_witness :
    get_files demoFS "n8n-docs" ["a.md", "missing.md"] "/v" =
      .ok (process_files demoFS ("/v" ++ "/" ++ "n8n-docs") ["a.md", "missing.md"]) ∧
    ((process_files demoFS ("/v" ++ "/" ++ "n8n-docs") ["a.md", "missing.md"]).files.map
        FileContent.path).count "a.md" +
      ((process_files demoFS ("/v" ++ "/" ++ "n8n-docs") ["a.md", "missing.md"]).errors.map
        FileErr.file).count "a.md" = 1 := by
  have h := get_files_partition_exact demoFS "n8n-docs" ["a.md", "missing.md"] "/v"
    (by decide) (by decide)
  exact ⟨h.1, by rw [h.2.1 "a.md"]; decide⟩

/-- C7 counterexample: a match-typed line whose later keys are missing (a
`KeyError` after the file path was read) is "skipped", but the code has
already created an empty entry for a new file key, so the response differs
from the one for the stream with that line removed: it contains an extra file
group with no matches. -/
theorem malformed_event_residue_cex :
    search_response [RgLine.matchResidue "a.md"] 50 ≠ search_response [] 50 := by
  decide

/-- C7 (amended): no malformed line aborts the search; a line whose parse
fails before any aggregation state is touched (unparseable JSON, or a key
missing before the file path is read) leaves the response identical to the
stream with that line removed, while a match-typed line whose required keys
are missing after a valid file path may additionally leave behind an empty
match group for that file but contributes no match: the reported total and
the truncation flag are the same as with the line removed. -/
theorem malformed_line_skip_semantics :
    (∀ (pre post : List RgLine) (mx : Nat),
      search_response (pre ++ RgLine.malformed :: post) mx =
        search_response (pre ++ post) mx) ∧
    (∀ (k : String) (pre post : List RgLine) (mx : Nat),
      (search_response (pre ++ RgLine.matchResidue k :: post) mx).total_matches =
        (search_response (pre ++ post) mx).total_matches ∧
      (search_response (pre ++ RgLine.matchResidue k :: post) mx).truncated =
        (search_response (pre ++ post) mx).truncated) := by
  constructor
  · intro pre post mx
    have hagg : aggregate (pre ++ RgLine.malformed :: post) = aggregate (pre ++ post) := by
      simp only [aggregate, List.foldl_append, List.foldl_cons]
      rfl
    simp [search_response, hagg]
  · intro k pre post mx
    have hcnt : countMatches (pre ++ RgLine.matchResidue k :: post) =
        countMatches (pre ++ post) := by
      simp [countMatches_append, countMatches, matchInc]
    constructor
    · rw [total_matches_eq_countMatches, total_matches_eq_countMatches, hcnt]
    · rw [truncated_eq_decide, truncated_eq_decide, hcnt]

/-- C8: a file that exists, is a regular file inside the base, and fails the
primary UTF-8 decode is retried with the permissive fallback decode: on
fallback success it still appears in `files` with its content and byte size;
only a failure of the fallback read itself becomes a per-file
"Failed to read file" error. -/
theorem decode_fallback_keeps_file (fs : FS) (d base p : String) (files : List String)
    (hd : d ∈ allowedDirs) (hex : fs.pathExists (base ++ "/" ++ d) = true)
    (hmem : p ∈ files)
    (hck1 : strStartsWith (fs.resolve (joinPath (base ++ "/" ++ d) p))
      (fs.resolve (base ++ "/" ++ d)) = true)
    (hck2 : fs.pathExists (fs.resolve (joinPath (base ++ "/" ++ d) p)) = true)
    (hck3 : fs.is_file (fs.resolve (joinPath (base ++ "/" ++ d) p)) = true)
    (hdec : fs.read_text (fs.resolve (joinPath (base ++ "/" ++ d) p)) =
      ReadTextResult.decodeError) :
    get_files fs d files base = .ok (process_files fs (base ++ "/" ++ d) files) ∧
    (∀ c, fs.read_bytes_fallback (fs.resolve (joinPath (base ++ "/" ++ d) p)) = .ok c →
      FileContent.mk p c (fs.size (fs.resolve (joinPath (base ++ "/" ++ d) p))) ∈
        (process_files fs (base ++ "/" ++ d) files).files) ∧
    (∀ e, fs.read_bytes_fallback (fs.resolve (joinPath (base ++ "/" ++ d) p)) = .error e →
      FileErr.mk p ("Failed to read file: " ++ e) ∈
        (process_files fs (base ++ "/" ++ d) files).errors) := by
  refine ⟨by simp [get_files, hd, hex], ?_, ?_⟩
  · intro c hfb
    have hpf : processFile fs (base ++ "/" ++ d) p =
        .inl ⟨p, c, fs.size (fs.resolve (joinPath (base ++ "/" ++ d) p))⟩ := by
      simp [processFile, hck1, hck2, hck3, hdec, hfb]
    exact mem_process_files_inl fs (base ++ "/" ++ d) files p _ hmem hpf
  · intro e hfb
    have hpf : processFile fs (base ++ "/" ++ d) p =
        .inr ⟨p, "Failed to read file: " ++ e⟩ := by
      simp [processFile, hck1, hck2, hck3, hdec, hfb]
    exact mem_process_files_inr fs (base ++ "/" ++ d) files p _ hmem hpf

/-- C8 witness: the non-UTF-8 file `b.bin` still lands in `files` with its
fallback-decoded content and byte size. -/
theorem decode_fallback_keeps_file_witness :
    get_files fallbackFS "n8n-docs" ["b.bin"] "/v" =
      .ok (process_files fallbackFS ("/v" ++ "/" ++ "n8n-docs") ["b.bin"]) ∧
    FileContent.mk "b.bin" "x?y" 3 ∈
      (process_files fallbackFS ("/v" ++ "/" ++ "n8n-docs") ["b.bin"]).files := by
  have h := decode_fallback_keeps_file fallbackFS "n8n-docs" "/v" "b.bin" ["b.bin"]
    (by decide) (by decide) (by decide) (by decide) (by decide) (by decide) (by decide)
  exact ⟨h.1, h.2.1 "x?y" (by rfl)⟩

/-- C9: a context event for a file with no recorded match yet (in particular
when nothing at all has been recorded) is silently dropped: the aggregation
state is left exactly as it was and no match of any file gains the line. -/
theorem orphan_context_dropped (st : AggState) (k : String) (ln : Nat) (text : String)
    (h : (lookupKey st.results k).getD [] = []) :
    processLine st (RgLine.context k ln text) = st := by
  simp only [processLine]
  split
  · rfl
  · cases hl : lookupKey st.results k with
    | none => simp [hl]
    | some ms =>
      rw [hl] at h
      simp at h
      simp [hl, h]

/-- C9 witness: a context event for `a.md` in a state holding only a `b.md`
match changes nothing. -/
theorem orphan_context_dropped_witness :
    processLine ⟨[("b.md", [⟨1, "m", [], []⟩])], 1⟩ (RgLine.context "a.md" 3 "x") =
      ⟨[("b.md", [⟨1, "m", [], []⟩])], 1⟩ :=
  orphan_context_dropped ⟨[("b.md", [⟨1, "m", [], []⟩])], 1⟩ "a.md" 3 "x" (by decide)

/-- C10: with an allow-listed, existing directory, the `files` entries keep
the relative order of their paths in the request, and so do the `errors`
entries: both projections are sublists of the request list. -/
theorem get_files_order_preserving (fs : FS) (d : String) (files : List String)
    (base : String) (hd : d ∈ allowedDirs)
    (hex : fs.pathExists (base ++ "/" ++ d) = true) :
    get_files fs d files base = .ok (process_files fs (base ++ "/" ++ d) files) ∧
    ((process_files fs (base ++ "/" ++ d) files).files.map FileContent.path).Sublist files ∧
    ((process_files fs (base ++ "/" ++ d) files).errors.map FileErr.file).Sublist files :=
  ⟨by simp [get_files, hd, hex],
   process_files_files_sublist fs (base ++ "/" ++ d) files,
   process_files_errors_sublist fs (base ++ "/" ++ d) files⟩

/-- C10 witness: on a request mixing readable, missing and readable-again
paths the projections are order-preserving. -/
theorem get_files_order_preserving_witness :
    get_files demoFS "n8n-docs" ["a.md", "missing.md", "a.md"] "/v" =
      .ok (process_files demoFS ("/v" ++ "/" ++ "n8n-docs") ["a.md", "missing.md", "a.md"]) ∧
    ((process_files demoFS ("/v" ++ "/" ++ "n8n-docs")
        ["a.md", "missing.md", "a.md"]).files.map FileContent.path).Sublist
      ["a.md", "missing.md", "a.md"] := by
  have h := get_files_order_preserving demoFS "n8n-docs" ["a.md", "missing.md", "a.md"]
    "/v" (by decide) (by decide)
  exact ⟨h.1, h.2.1⟩
